import Mathlib

/-!
# OffsetAllocator: shallow embedding and verification

A shallow embedding of `src/offsetAllocator.c` / `src/offsetAllocator.h`
(a fixed-capacity offset suballocator with two-level segregated-fit bins),
together with proofs checking the natural-language specification against it.

Machine integers (`uint32`, `uint8`) are modelled as `Nat` with explicit
`% 2^32` / `% 2^8` where the C code can wrap.  The C arrays
(`m_usedBins`, `m_binIndices`, `m_nodes`, `m_freeNodes`) are modelled as
total functions `Nat → _`; the C code only ever indexes them inside their
declared bounds, and every claim is stated on those indices.  `NodeIndex`
is compiled in its 32-bit configuration (`USE_16_BIT_NODE_INDICES` is not
defined in the source), so `NODE_UNUSED = 0xffffffff`.
-/

namespace OffsetAlloc

/-- `2^32`, the modulus of `uint32` arithmetic. -/
def U32 : Nat := 4294967296

/-- `uint32` addition (wraps at `2^32`). -/
def u32add (a b : Nat) : Nat := (a + b) % U32

/-- `uint32` subtraction (wraps at `2^32`). -/
def u32sub (a b : Nat) : Nat := (a + (U32 - b % U32)) % U32

/-- `MANTISSA_BITS` from `offsetAllocator.c`. -/
def MANTISSA_BITS : Nat := 3

/-- `MANTISSA_VALUE = 1 << MANTISSA_BITS` from `offsetAllocator.c`. -/
def MANTISSA_VALUE : Nat := 8

/-- `MANTISSA_MASK = MANTISSA_VALUE - 1` from `offsetAllocator.c`. -/
def MANTISSA_MASK : Nat := 7

/-- `NODE_UNUSED = 0xffffffff` from `offsetAllocator.c`. -/
def NODE_UNUSED : Nat := 4294967295

/-- `NO_SPACE = 0xffffffff` from `offsetAllocator.c`. -/
def NO_SPACE : Nat := 4294967295

/-- `TOP_BINS_INDEX_SHIFT` from `offsetAllocator.h`. -/
def TOP_BINS_INDEX_SHIFT : Nat := 3

/-- `LEAF_BINS_INDEX_MASK` from `offsetAllocator.h`. -/
def LEAF_BINS_INDEX_MASK : Nat := 7

/-- `NUM_TOP_BINS` from `offsetAllocator.h`. -/
def NUM_TOP_BINS : Nat := 32

/-- `NUM_LEAF_BINS` from `offsetAllocator.h`. -/
def NUM_LEAF_BINS : Nat := 256

/-- Fuel-bounded base-2 logarithm: `log2fuel f n` is `⌊log₂ n⌋` for
`1 ≤ n < 2^f` (structural recursion on fuel so that the kernel can
evaluate it). -/
def log2fuel : Nat → Nat → Nat
  | 0, _ => 0
  | f + 1, n => if n < 2 then 0 else log2fuel f (n / 2) + 1

/-- Position of the highest set bit of a nonzero 32-bit value
(`31 - lzcnt`). -/
def hsb (v : Nat) : Nat := log2fuel 32 v

/-- `lzcnt_nonzero` from `offsetAllocator.c`: count of leading zeros of a
nonzero 32-bit value (`__builtin_clz`). -/
def lzcnt_nonzero (v : Nat) : Nat := 31 - hsb v

/-- Fuel-bounded count of trailing zeros (structural recursion on fuel). -/
def tzcntFuel : Nat → Nat → Nat
  | 0, _ => 0
  | f + 1, n => if n % 2 = 1 then 0 else tzcntFuel f (n / 2) + 1

/-- `tzcnt_nonzero` from `offsetAllocator.c`: count of trailing zeros of a
nonzero 32-bit value (`__builtin_ctz`). -/
def tzcnt_nonzero (v : Nat) : Nat := tzcntFuel 32 v

/-- `uintToFloatRoundUp` from `offsetAllocator.c` (lines 77-102): encode a
32-bit size as an 8-bit bin index (5-bit exponent, 3-bit mantissa),
rounding up; the final `+` deliberately lets a mantissa carry overflow
into the exponent. -/
def uintToFloatRoundUp (size : Nat) : Nat :=
  if size < MANTISSA_VALUE then
    (0 <<< MANTISSA_BITS) + size
  else
    let leadingZeros := lzcnt_nonzero size
    let highestSetBit := 31 - leadingZeros
    let mantissaStartBit := highestSetBit - MANTISSA_BITS
    let exp := mantissaStartBit + 1
    let mantissa := (size >>> mantissaStartBit) &&& MANTISSA_MASK
    let lowBitsMask := (1 <<< mantissaStartBit) - 1
    let mantissa := if size &&& lowBitsMask ≠ 0 then mantissa + 1 else mantissa
    (exp <<< MANTISSA_BITS) + mantissa

/-- `uintToFloatRoundDown` from `offsetAllocator.c` (lines 104-122):
encode a 32-bit size as an 8-bit bin index, rounding down. -/
def uintToFloatRoundDown (size : Nat) : Nat :=
  if size < MANTISSA_VALUE then
    (0 <<< MANTISSA_BITS) ||| size
  else
    let leadingZeros := lzcnt_nonzero size
    let highestSetBit := 31 - leadingZeros
    let mantissaStartBit := highestSetBit - MANTISSA_BITS
    let exp := mantissaStartBit + 1
    let mantissa := (size >>> mantissaStartBit) &&& MANTISSA_MASK
    (exp <<< MANTISSA_BITS) ||| mantissa

/-- `floatToUint` from `offsetAllocator.c` (lines 124-133): decode an
8-bit bin index back to the bin's nominal 32-bit size.  The shift is
`uint32` arithmetic, hence the `% U32`. -/
def floatToUint (floatValue : Nat) : Nat :=
  let exponent := floatValue >>> MANTISSA_BITS
  let mantissa := floatValue &&& MANTISSA_MASK
  if exponent = 0 then mantissa
  else ((mantissa ||| MANTISSA_VALUE) <<< (exponent - 1)) % U32

/-- `findLowestSetBitAfter` from `offsetAllocator.c` (lines 136-143). -/
def findLowestSetBitAfter (bitMask startBitIndex : Nat) : Nat :=
  let maskBeforeStartIndex := ((1 <<< startBitIndex) - 1) % U32
  let maskAfterStartIndex := (U32 - 1) ^^^ maskBeforeStartIndex
  let bitsAfter := bitMask &&& maskAfterStartIndex
  if bitsAfter = 0 then NO_SPACE else tzcnt_nonzero bitsAfter

/-- `struct _Node` from `offsetAllocator.c`. -/
structure NodeData where
  dataOffset : Nat
  dataSize : Nat
  binListPrev : Nat
  binListNext : Nat
  neighborPrev : Nat
  neighborNext : Nat
  used : Bool
deriving DecidableEq, Repr

/-- The zeroed node produced by `calloc` followed by the reset loop that
sets the four link fields to `NODE_UNUSED`. -/
def resetNode : NodeData :=
  { dataOffset := 0, dataSize := 0, binListPrev := NODE_UNUSED,
    binListNext := NODE_UNUSED, neighborPrev := NODE_UNUSED,
    neighborNext := NODE_UNUSED, used := false }

/-- `struct Allocator` from `offsetAllocator.h`; the four arrays are
modelled as total functions, indexed only inside their C bounds. -/
structure Allocator where
  m_size : Nat
  m_maxAllocs : Nat
  m_freeStorage : Nat
  m_usedBinsTop : Nat
  m_usedBins : Nat → Nat
  m_binIndices : Nat → Nat
  m_nodes : Nat → NodeData
  m_freeNodes : Nat → Nat
  m_freeOffset : Nat

/-- `struct Allocation` from `offsetAllocator.h`. -/
structure Allocation where
  offset : Nat
  metadata : Nat
deriving DecidableEq, Repr

/-- `EmptyAllocation` from `offsetAllocator.h`. -/
def EmptyAllocation : Allocation := { offset := NO_SPACE, metadata := NO_SPACE }

/-- `struct StorageReport` from `offsetAllocator.h`. -/
structure StorageReport where
  totalFreeSpace : Nat
  largestFreeRegion : Nat
deriving DecidableEq, Repr

/-- Pointwise update of a function-modelled array. -/
def fupd {α : Type} (f : Nat → α) (i : Nat) (v : α) : Nat → α :=
  fun j => if j = i then v else f j

/-- `insertNodeIntoBin` from `offsetAllocator.c` (lines 388-432); returns
the C return value (the node index) together with the updated allocator. -/
def insertNodeIntoBin (s : Allocator) (size dataOffset : Nat) : Nat × Allocator :=
  let binIndex := uintToFloatRoundDown size
  let topBinIndex := binIndex >>> TOP_BINS_INDEX_SHIFT
  let leafBinIndex := binIndex &&& LEAF_BINS_INDEX_MASK
  -- Bin was empty before?  Then set the two bitmap bits.
  let s :=
    if s.m_binIndices binIndex = NODE_UNUSED then
      { s with
        m_usedBins := (fupd s.m_usedBins topBinIndex
          ((s.m_usedBins topBinIndex ||| (1 <<< leafBinIndex)) % 256)),
        m_usedBinsTop := (s.m_usedBinsTop ||| (1 <<< topBinIndex)) % U32 }
    else s
  -- Take a freelist node and insert on top of the bin linked list.
  let topNodeIndex := s.m_binIndices binIndex
  let nodeIndex := s.m_freeNodes s.m_freeOffset
  let s := { s with m_freeOffset := u32sub s.m_freeOffset 1 }
  let s := { s with m_nodes := (fupd s.m_nodes nodeIndex
    ({ dataOffset := dataOffset, dataSize := size,
       binListNext := topNodeIndex, binListPrev := NODE_UNUSED,
       neighborPrev := NODE_UNUSED, neighborNext := NODE_UNUSED,
       used := false })) }
  let s :=
    if topNodeIndex ≠ NODE_UNUSED then
      { s with m_nodes := (fupd s.m_nodes topNodeIndex
        ({ s.m_nodes topNodeIndex with binListPrev := nodeIndex })) }
    else s
  let s := { s with m_binIndices := fupd s.m_binIndices binIndex nodeIndex }
  let s := { s with m_freeStorage := u32add s.m_freeStorage size }
  (nodeIndex, s)

/-- `removeNodeFromBin` from `offsetAllocator.c` (lines 434-484).  Every
array read happens at the same program point as in the C source (the C
`node` pointer reads through memory at each use). -/
def removeNodeFromBin (s : Allocator) (nodeIndex : Nat) : Allocator :=
  let s :=
    if (s.m_nodes nodeIndex).binListPrev ≠ NODE_UNUSED then
      -- Easy case: remove this node from the middle of the list.
      let p := (s.m_nodes nodeIndex).binListPrev
      let s := { s with m_nodes := (fupd s.m_nodes p
        ({ s.m_nodes p with binListNext := (s.m_nodes nodeIndex).binListNext })) }
      if (s.m_nodes nodeIndex).binListNext ≠ NODE_UNUSED then
        let q := (s.m_nodes nodeIndex).binListNext
        { s with m_nodes := (fupd s.m_nodes q
          ({ s.m_nodes q with binListPrev := (s.m_nodes nodeIndex).binListPrev })) }
      else s
    else
      -- Hard case: we are the first node in a bin.  Find the bin.
      let binIndex := uintToFloatRoundDown (s.m_nodes nodeIndex).dataSize
      let topBinIndex := binIndex >>> TOP_BINS_INDEX_SHIFT
      let leafBinIndex := binIndex &&& LEAF_BINS_INDEX_MASK
      let s := { s with m_binIndices := (fupd s.m_binIndices binIndex
        ((s.m_nodes nodeIndex).binListNext)) }
      let s :=
        if (s.m_nodes nodeIndex).binListNext ≠ NODE_UNUSED then
          let q := (s.m_nodes nodeIndex).binListNext
          { s with m_nodes := (fupd s.m_nodes q
            ({ s.m_nodes q with binListPrev := NODE_UNUSED })) }
        else s
      -- Bin empty?  Then clear the bitmap bits.
      if s.m_binIndices binIndex = NODE_UNUSED then
        let s : Allocator := { s with m_usedBins := (fupd s.m_usedBins topBinIndex
          ((s.m_usedBins topBinIndex &&& ((U32 - 1) ^^^ (1 <<< leafBinIndex))) % 256)) }
        if s.m_usedBins topBinIndex = 0 then
          { s with m_usedBinsTop := s.m_usedBinsTop &&& ((U32 - 1) ^^^ (1 <<< topBinIndex)) }
        else s
      else s
  -- Insert the node to freelist (`m_freeNodes[++m_freeOffset] = nodeIndex`).
  let s := { s with
    m_freeNodes := fupd s.m_freeNodes (u32add s.m_freeOffset 1) nodeIndex,
    m_freeOffset := u32add s.m_freeOffset 1 }
  { s with m_freeStorage := u32sub s.m_freeStorage (s.m_nodes nodeIndex).dataSize }

/-- The tail of `allocate` (lines 269-318 of `offsetAllocator.c`), shared
by the two bin-scan outcomes: pop the head node of the located bin, clear
bitmap bits if the bin drained, split off the remainder into a new free
node spliced into the neighbor chain, and return the allocation. -/
def allocateFromBin (s : Allocator) (size topBinIndex leafBinIndex : Nat) :
    Allocation × Allocator :=
  let binIndex := (topBinIndex <<< TOP_BINS_INDEX_SHIFT) ||| leafBinIndex
  -- Pop the top node of the bin.
  let nodeIndex := s.m_binIndices binIndex
  let nodeTotalSize := (s.m_nodes nodeIndex).dataSize
  let s := { s with m_nodes := (fupd s.m_nodes nodeIndex
    ({ s.m_nodes nodeIndex with dataSize := size })) }
  let s := { s with m_nodes := (fupd s.m_nodes nodeIndex
    ({ s.m_nodes nodeIndex with used := true })) }
  let s := { s with m_binIndices := (fupd s.m_binIndices binIndex
    ((s.m_nodes nodeIndex).binListNext)) }
  let s :=
    if (s.m_nodes nodeIndex).binListNext ≠ NODE_UNUSED then
      let q := (s.m_nodes nodeIndex).binListNext
      { s with m_nodes := (fupd s.m_nodes q
        ({ s.m_nodes q with binListPrev := NODE_UNUSED })) }
    else s
  let s := { s with m_freeStorage := u32sub s.m_freeStorage nodeTotalSize }
  -- Bin empty?  Then clear the bitmap bits.
  let s :=
    if s.m_binIndices binIndex = NODE_UNUSED then
      let s : Allocator := { s with m_usedBins := (fupd s.m_usedBins topBinIndex
        ((s.m_usedBins topBinIndex &&& ((U32 - 1) ^^^ (1 <<< leafBinIndex))) % 256)) }
      if s.m_usedBins topBinIndex = 0 then
        { s with m_usedBinsTop := s.m_usedBinsTop &&& ((U32 - 1) ^^^ (1 <<< topBinIndex)) }
      else s
    else s
  -- Push back remainder to a lower bin and link it into the neighbor chain.
  let reminderSize := u32sub nodeTotalSize size
  let s :=
    if reminderSize ≠ 0 then
      let no := insertNodeIntoBin s reminderSize
        (u32add ((s.m_nodes nodeIndex).dataOffset) size)
      let newNodeIndex := no.1
      let s := no.2
      let s :=
        if (s.m_nodes nodeIndex).neighborNext ≠ NODE_UNUSED then
          let q := (s.m_nodes nodeIndex).neighborNext
          { s with m_nodes := (fupd s.m_nodes q
            ({ s.m_nodes q with neighborPrev := newNodeIndex })) }
        else s
      let s := { s with m_nodes := (fupd s.m_nodes newNodeIndex
        ({ s.m_nodes newNodeIndex with neighborPrev := nodeIndex })) }
      let s := { s with m_nodes := (fupd s.m_nodes newNodeIndex
        ({ s.m_nodes newNodeIndex with neighborNext := (s.m_nodes nodeIndex).neighborNext })) }
      { s with m_nodes := (fupd s.m_nodes nodeIndex
        ({ s.m_nodes nodeIndex with neighborNext := newNodeIndex })) }
    else s
  ({ offset := (s.m_nodes nodeIndex).dataOffset, metadata := nodeIndex }, s)

/-- `allocate` from `offsetAllocator.c` (lines 229-319).  The C routine
merges the two scan outcomes by mutating `topBinIndex`/`leafBinIndex`;
here the shared tail is `allocateFromBin`. -/
def allocate (s : Allocator) (size : Nat) : Allocation × Allocator :=
  -- Out of allocations?
  if s.m_freeOffset = 0 then (EmptyAllocation, s)
  else
    -- Round up to bin index to ensure that alloc >= bin.
    let minBinIndex := uintToFloatRoundUp size
    let minTopBinIndex := minBinIndex >>> TOP_BINS_INDEX_SHIFT
    let minLeafBinIndex := minBinIndex &&& LEAF_BINS_INDEX_MASK
    -- If top bin exists, scan its leaf bin.  This can fail (NO_SPACE).
    let leafBinIndex :=
      if s.m_usedBinsTop &&& (1 <<< minTopBinIndex) ≠ 0 then
        findLowestSetBitAfter (s.m_usedBins minTopBinIndex) minLeafBinIndex
      else NO_SPACE
    if leafBinIndex = NO_SPACE then
      -- If we didn't find space in the top bin, search the top bins from +1.
      let topBinIndex := findLowestSetBitAfter s.m_usedBinsTop (minTopBinIndex + 1)
      -- Out of space?
      if topBinIndex = NO_SPACE then (EmptyAllocation, s)
      else allocateFromBin s size topBinIndex (tzcnt_nonzero (s.m_usedBins topBinIndex))
    else allocateFromBin s size minTopBinIndex leafBinIndex

/-- `freeAllocation` from `offsetAllocator.c` (lines 321-386).  The
`!allocator->m_nodes` early return (a null-pointer guard before `init`)
has no counterpart in the embedding, where the node array always exists. -/
def freeAllocation (s : Allocator) (allocation : Allocation) : Allocator :=
  let nodeIndex := allocation.metadata
  -- Merge with neighbors...
  let offset := (s.m_nodes nodeIndex).dataOffset
  let size := (s.m_nodes nodeIndex).dataSize
  let t :=
    if (s.m_nodes nodeIndex).neighborPrev ≠ NODE_UNUSED ∧
        (s.m_nodes ((s.m_nodes nodeIndex).neighborPrev)).used = false then
      -- Previous (contiguous) free node: take its offset, sum sizes.
      let prevIdx := (s.m_nodes nodeIndex).neighborPrev
      let offset := (s.m_nodes prevIdx).dataOffset
      let size := u32add size ((s.m_nodes prevIdx).dataSize)
      let s := removeNodeFromBin s prevIdx
      let s := { s with m_nodes := (fupd s.m_nodes nodeIndex
        ({ s.m_nodes nodeIndex with neighborPrev := (s.m_nodes prevIdx).neighborPrev })) }
      (offset, size, s)
    else (offset, size, s)
  let offset := t.1
  let size := t.2.1
  let s := t.2.2
  let t2 :=
    if (s.m_nodes nodeIndex).neighborNext ≠ NODE_UNUSED ∧
        (s.m_nodes ((s.m_nodes nodeIndex).neighborNext)).used = false then
      -- Next (contiguous) free node: offset remains the same, sum sizes.
      let nextIdx := (s.m_nodes nodeIndex).neighborNext
      let size := u32add size ((s.m_nodes nextIdx).dataSize)
      let s := removeNodeFromBin s nextIdx
      let s := { s with m_nodes := (fupd s.m_nodes nodeIndex
        ({ s.m_nodes nodeIndex with neighborNext := (s.m_nodes nextIdx).neighborNext })) }
      (size, s)
    else (size, s)
  let size := t2.1
  let s := t2.2
  let neighborNext := (s.m_nodes nodeIndex).neighborNext
  let neighborPrev := (s.m_nodes nodeIndex).neighborPrev
  -- Insert the removed node to freelist.
  let s := { s with
    m_freeNodes := fupd s.m_freeNodes (u32add s.m_freeOffset 1) nodeIndex,
    m_freeOffset := u32add s.m_freeOffset 1 }
  -- Insert the (combined) free node to bin.
  let co := insertNodeIntoBin s size offset
  let combinedNodeIndex := co.1
  let s := co.2
  -- Connect neighbors with the new combined node.
  let s :=
    if neighborNext ≠ NODE_UNUSED then
      let s := { s with m_nodes := (fupd s.m_nodes combinedNodeIndex
        ({ s.m_nodes combinedNodeIndex with neighborNext := neighborNext })) }
      { s with m_nodes := (fupd s.m_nodes neighborNext
        ({ s.m_nodes neighborNext with neighborPrev := combinedNodeIndex })) }
    else s
  let s :=
    if neighborPrev ≠ NODE_UNUSED then
      let s := { s with m_nodes := (fupd s.m_nodes combinedNodeIndex
        ({ s.m_nodes combinedNodeIndex with neighborPrev := neighborPrev })) }
      { s with m_nodes := (fupd s.m_nodes neighborPrev
        ({ s.m_nodes neighborPrev with neighborNext := combinedNodeIndex })) }
    else s
  s

/-- `resetAllocator` from `offsetAllocator.c` (lines 181-222): zero the
bitmaps and counters, rebuild zeroed node and freelist arrays
(`m_freeNodes[i] = m_maxAllocs - i - 1`), then insert one node spanning
the whole storage. -/
def resetAllocator (s : Allocator) : Allocator :=
  let s := { s with
    m_freeStorage := 0,
    m_usedBinsTop := 0,
    m_freeOffset := u32sub s.m_maxAllocs 1,
    m_usedBins := fun _ => 0,
    m_binIndices := fun _ => NODE_UNUSED,
    m_nodes := fun _ => resetNode,
    m_freeNodes := fun i => s.m_maxAllocs - i - 1 }
  (insertNodeIntoBin s s.m_size 0).2

/-- `initAllocator` from `offsetAllocator.c` (lines 146-160). -/
def initAllocator (size max_allocs : Nat) : Allocator :=
  resetAllocator
    { m_size := size, m_maxAllocs := max_allocs, m_freeStorage := 0,
      m_usedBinsTop := 0, m_usedBins := fun _ => 0,
      m_binIndices := fun _ => NODE_UNUSED, m_nodes := fun _ => resetNode,
      m_freeNodes := fun _ => 0, m_freeOffset := 0 }

/-- Follows the words of the spec (§4.6), for comparison with the code's
`storageReport`: `total_free_space = free_storage`; `largest_free_region`
is zero when `used_bins_top == 0` and otherwise `decode((t<<3)|l)` with
`t = 31 − clz(used_bins_top)` and `l = 31 − clz(used_bins[t])` (the
highest set bits). -/
def storageReportSpec (s : Allocator) : StorageReport :=
  { totalFreeSpace := s.m_freeStorage,
    largestFreeRegion :=
      if s.m_usedBinsTop = 0 then 0
      else
        floatToUint
          ((hsb s.m_usedBinsTop <<< TOP_BINS_INDEX_SHIFT) |||
            hsb (s.m_usedBins (hsb s.m_usedBinsTop))) }

/-- `storageReport` from `offsetAllocator.c` (lines 496-515); note the
`m_freeOffset > 0` guard that zeroes the whole report. -/
def storageReport (s : Allocator) : StorageReport :=
  -- Out of allocations? -> Zero free space
  if s.m_freeOffset > 0 then
    let freeStorage := s.m_freeStorage
    if s.m_usedBinsTop ≠ 0 then
      let topBinIndex := 31 - lzcnt_nonzero s.m_usedBinsTop
      let leafBinIndex := 31 - lzcnt_nonzero (s.m_usedBins topBinIndex)
      { totalFreeSpace := freeStorage,
        largestFreeRegion :=
          floatToUint ((topBinIndex <<< TOP_BINS_INDEX_SHIFT) ||| leafBinIndex) }
    else
      { totalFreeSpace := freeStorage, largestFreeRegion := 0 }
  else
    { totalFreeSpace := 0, largestFreeRegion := 0 }

/-- Well-formedness of the width fields and the two-level bitmap, in the
direction "a set bitmap bit points at a non-empty bin" (one half of
invariant 4 of the spec, plus the `uint32`/`uint8` typing facts that the
C type system provides for free). -/
def BinsOK (s : Allocator) : Prop :=
  s.m_usedBinsTop < U32 ∧
  (∀ t, t < 32 → s.m_usedBins t < 256) ∧
  (∀ t, t < 32 → Nat.testBit s.m_usedBinsTop t = true → s.m_usedBins t ≠ 0) ∧
  (∀ b, b < 256 →
    Nat.testBit (s.m_usedBins (b >>> 3)) (b &&& 7) = true →
    s.m_binIndices b ≠ NODE_UNUSED)

/-- A node slot is live when it is a valid pool index that is not on the
freelist stack `m_freeNodes[0 .. m_freeOffset]`. -/
def Live (s : Allocator) (i : Nat) : Prop :=
  i < s.m_maxAllocs ∧ ∀ k, k ≤ s.m_freeOffset → s.m_freeNodes k ≠ i

/-- A fresh allocator with a 16-byte space and a 2-slot node pool: after
`init` one slot is taken by the single whole-space node, so exactly one
free slot remains (`m_freeOffset = 0`). -/
def tinyAlloc : Allocator := initAllocator 16 2

/-- The end-to-end scenario of spec §8.4:
`a=alloc(1024); b=alloc(3456); free(a); c=alloc(2345); d=alloc(456);
e=alloc(512)` on a fresh 256 MiB / 131072-slot allocator, returning
`(c.offset, d.offset, e.offset)`. -/
def traceC9 : Nat × Nat × Nat :=
  let t0 := initAllocator (256 * 1024 * 1024) 131072
  let pa := allocate t0 1024
  let pb := allocate pa.2 3456
  let t3 := freeAllocation pb.2 pa.1
  let pc := allocate t3 2345
  let pd := allocate pc.2 456
  let pe := allocate pd.2 512
  (pc.1.offset, pd.1.offset, pe.1.offset)

/-- Consecutive chain nodes are doubly linked through the `neighbor`
fields. -/
def chainLinks (s : Allocator) (ch : List Nat) : Prop :=
  List.Chain' (fun a b =>
    (s.m_nodes a).neighborNext = b ∧ (s.m_nodes b).neighborPrev = a) ch

/-- Consecutive chain nodes have contiguous regions: each node starts
where the previous one ends. -/
def chainOffsets (s : Allocator) (ch : List Nat) : Prop :=
  List.Chain' (fun a b =>
    (s.m_nodes b).dataOffset = (s.m_nodes a).dataOffset + (s.m_nodes a).dataSize) ch

/-- No two adjacent chain nodes are both free. -/
def chainNoAdjFree (s : Allocator) (ch : List Nat) : Prop :=
  List.Chain' (fun a b =>
    (s.m_nodes a).used = true ∨ (s.m_nodes b).used = true) ch

/-- The structural part of neighbor-chain well-formedness: the chain is
non-empty and duplicate-free, linked both ways, starts at offset `0` with
no predecessor, ends with no successor, each node starts where the
previous ends, and the sizes sum to the whole space. -/
def chainStruct (s : Allocator) (ch : List Nat) : Prop :=
  ch ≠ [] ∧ ch.Nodup ∧
  chainLinks s ch ∧
  (∀ h, ch.head? = some h →
    (s.m_nodes h).neighborPrev = NODE_UNUSED ∧ (s.m_nodes h).dataOffset = 0) ∧
  (∀ t, ch.getLast? = some t → (s.m_nodes t).neighborNext = NODE_UNUSED) ∧
  chainOffsets s ch ∧
  (ch.map (fun i => (s.m_nodes i).dataSize)).sum = s.m_size

/-- The neighbor chain `ch` is an address-ordered tiling of `[0, m_size)`
by exactly the live nodes. -/
def ChainWF (s : Allocator) (ch : List Nat) : Prop :=
  chainStruct s ch ∧ (∀ i, Live s i ↔ i ∈ ch)

/-- The free list of bin `b` is the node-index list `l`: the bin head
points at its first element, consecutive elements are doubly linked
through the `binList` fields, and every element is a live free node whose
size rounds down to `b`. -/
def BinList (s : Allocator) (b : Nat) (l : List Nat) : Prop :=
  s.m_binIndices b = l.headD NODE_UNUSED ∧
  l.Nodup ∧
  List.Chain' (fun a c =>
    (s.m_nodes a).binListNext = c ∧ (s.m_nodes c).binListPrev = a) l ∧
  (∀ h, l.head? = some h → (s.m_nodes h).binListPrev = NODE_UNUSED) ∧
  (∀ t, l.getLast? = some t → (s.m_nodes t).binListNext = NODE_UNUSED) ∧
  (∀ i ∈ l, Live s i ∧ (s.m_nodes i).used = false ∧
    uintToFloatRoundDown (s.m_nodes i).dataSize = b)

/-- The inductive invariant of the allocator: field widths, a duplicate-free
in-bounds freelist stack, a well-formed neighbor chain holding exactly the
live nodes with no two adjacent free nodes, per-bin free lists containing
exactly the live free nodes of the matching size class, and a two-level
bitmap that exactly reflects bin occupancy. -/
structure Inv (s : Allocator) : Prop where
  size_lt : s.m_size < U32
  max_lt : s.m_maxAllocs < U32
  max_ge : 2 ≤ s.m_maxAllocs
  top_lt : s.m_usedBinsTop < U32
  bins_lt : ∀ t, t < 32 → s.m_usedBins t < 256
  stack_mem : ∀ k, k ≤ s.m_freeOffset → s.m_freeNodes k < s.m_maxAllocs
  stack_inj : ∀ k l, k ≤ s.m_freeOffset → l ≤ s.m_freeOffset →
    s.m_freeNodes k = s.m_freeNodes l → k = l
  chain : ∃ ch, ChainWF s ch ∧ chainNoAdjFree s ch ∧
    s.m_freeOffset + 1 + ch.length = s.m_maxAllocs
  bins : ∀ b, b < 256 → ∃ l, BinList s b l ∧
    (∀ i, Live s i → (s.m_nodes i).used = false →
      uintToFloatRoundDown (s.m_nodes i).dataSize = b → i ∈ l)
  bitmap_leaf : ∀ b, b < 256 →
    (Nat.testBit (s.m_usedBins (b >>> 3)) (b &&& 7) = true ↔
      s.m_binIndices b ≠ NODE_UNUSED)
  bitmap_top : ∀ t, t < 32 →
    (Nat.testBit s.m_usedBinsTop t = true ↔ s.m_usedBins t ≠ 0)

/-- States reachable through the public interface: `init` (or `reset`, the
same routine) with a sane configuration, `allocate` with any `uint32`
request, and `free` of a currently-used node (the C precondition: freeing
anything else is undefined behavior). -/
inductive Reachable : Allocator → Prop where
  | init : ∀ size maxAllocs, 2 ≤ maxAllocs → maxAllocs < U32 → size < U32 →
      Reachable (initAllocator size maxAllocs)
  | reset : ∀ s, Reachable s → Reachable (resetAllocator s)
  | alloc : ∀ s size, Reachable s → size < U32 → Reachable (allocate s size).2
  | free : ∀ s a, Reachable s → Live s a.metadata →
      (s.m_nodes a.metadata).used = true → Reachable (freeAllocation s a)

/-! ## Arithmetic and bit-manipulation lemmas -/

theorem U32_eq : U32 = 2 ^ 32 := by norm_num [U32]

theorem log2fuel_pow_le {f n : Nat} (h1 : 1 ≤ n) : 2 ^ log2fuel f n ≤ n := by
  induction f generalizing n with
  | zero => simpa [log2fuel]
  | succ f ih =>
    rw [log2fuel]
    by_cases h : n < 2
    · simpa [h]
    · have h2 : 1 ≤ n / 2 := by omega
      have := ih h2
      simp only [if_neg h]
      rw [pow_succ]
      omega

theorem log2fuel_lt_pow {f n : Nat} (h2 : n < 2 ^ f) : n < 2 ^ (log2fuel f n + 1) := by
  induction f generalizing n with
  | zero =>
    simp only [pow_zero] at h2
    have hz : log2fuel 0 n = 0 := rfl
    rw [hz]
    omega
  | succ f ih =>
    rw [log2fuel]
    by_cases h : n < 2
    · simp only [if_pos h]
      omega
    · have h2' : n / 2 < 2 ^ f := by rw [pow_succ] at h2; omega
      have := ih h2'
      simp only [if_neg h]
      rw [pow_succ, pow_succ] at *
      omega

theorem hsb_pow_le {n : Nat} (h : 1 ≤ n) : 2 ^ hsb n ≤ n := log2fuel_pow_le h

theorem hsb_lt_pow {n : Nat} (h : n < U32) : n < 2 ^ (hsb n + 1) :=
  log2fuel_lt_pow (by rw [U32_eq] at h; exact h)

theorem hsb_le_31 {n : Nat} (h1 : 1 ≤ n) (h2 : n < U32) : hsb n ≤ 31 := by
  by_contra hc
  push_neg at hc
  have : 2 ^ 32 ≤ 2 ^ hsb n := Nat.pow_le_pow_right (by norm_num) (by omega)
  have := hsb_pow_le h1
  rw [U32_eq] at h2
  omega

theorem hsb_eq {n k : Nat} (h1 : 2 ^ k ≤ n) (h2 : n < 2 ^ (k + 1)) (h3 : n < U32) :
    hsb n = k := by
  have hn1 : 1 ≤ n := le_trans (Nat.one_le_two_pow) h1
  have ha := hsb_pow_le hn1
  have hb := hsb_lt_pow h3
  have hk1 : hsb n < k + 1 := by
    by_contra hc
    push_neg at hc
    have : 2 ^ (k + 1) ≤ 2 ^ hsb n := Nat.pow_le_pow_right (by norm_num) hc
    omega
  have hk2 : k < hsb n + 1 := by
    by_contra hc
    push_neg at hc
    have : 2 ^ (hsb n + 1) ≤ 2 ^ k := Nat.pow_le_pow_right (by norm_num) hc
    omega
  omega

theorem tzcntFuel_spec {f n : Nat} (h1 : 1 ≤ n) (h2 : n < 2 ^ f) :
    Nat.testBit n (tzcntFuel f n) = true ∧
    ∀ j, j < tzcntFuel f n → Nat.testBit n j = false := by
  induction f generalizing n with
  | zero => simp only [pow_zero] at h2; omega
  | succ f ih =>
    rw [tzcntFuel]
    by_cases h : n % 2 = 1
    · simp [h, Nat.testBit_zero]
    · have hn2 : 1 ≤ n / 2 := by omega
      have hn2' : n / 2 < 2 ^ f := by rw [pow_succ] at h2; omega
      obtain ⟨ha, hb⟩ := ih hn2 hn2'
      simp only [if_neg h]
      refine ⟨by rw [Nat.testBit_add_one]; exact ha, ?_⟩
      intro j hj
      cases j with
      | zero =>
        simp only [Nat.testBit_zero, decide_eq_false_iff_not]
        omega
      | succ j => rw [Nat.testBit_add_one]; exact hb j (by omega)

theorem testBit_lt_pow {n t c : Nat} (h : Nat.testBit n t = true) (h2 : n < 2 ^ c) :
    t < c := by
  have := Nat.testBit_implies_ge h
  by_contra hc
  push_neg at hc
  have : 2 ^ c ≤ 2 ^ t := Nat.pow_le_pow_right (by norm_num) hc
  omega

theorem shiftLeft_or_eq {t l : Nat} (hl : l < 8) :
    (t <<< 3) ||| l = 8 * t + l := by
  have h8 : (8 : Nat) = 2 ^ 3 := by norm_num
  rw [Nat.shiftLeft_eq]
  have := Nat.mul_add_lt_is_or (i := 3) (by omega : l < 2 ^ 3) t
  calc t * 2 ^ 3 ||| l = 2 ^ 3 * t ||| l := by ring_nf
    _ = 2 ^ 3 * t + l := (this).symm
    _ = 8 * t + l := by norm_num

theorem shiftLeft_or_shiftRight {t l : Nat} (hl : l < 8) :
    ((t <<< 3) ||| l) >>> 3 = t := by
  rw [shiftLeft_or_eq hl, Nat.shiftRight_eq_div_pow]
  omega

theorem shiftLeft_or_and {t l : Nat} (hl : l < 8) :
    ((t <<< 3) ||| l) &&& 7 = l := by
  rw [shiftLeft_or_eq hl]
  have : (7 : Nat) = 2 ^ 3 - 1 := by norm_num
  rw [this, Nat.and_pow_two_sub_one_eq_mod]
  omega

theorem and_7_eq_mod (x : Nat) : x &&& 7 = x % 8 := by
  have : (7 : Nat) = 2 ^ 3 - 1 := by norm_num
  rw [this, Nat.and_pow_two_sub_one_eq_mod]

theorem findLowestSetBitAfter_spec {mask start : Nat} (hm : mask < U32) (hs : start ≤ 32)
    (h : findLowestSetBitAfter mask start ≠ NO_SPACE) :
    Nat.testBit mask (findLowestSetBitAfter mask start) = true ∧
    start ≤ findLowestSetBitAfter mask start ∧
    findLowestSetBitAfter mask start < 32 := by
  have hpow : (1 <<< start) = 2 ^ start := by rw [Nat.shiftLeft_eq, one_mul]
  have hple : 2 ^ start ≤ 2 ^ 32 := Nat.pow_le_pow_right (by norm_num) hs
  have hmb : ((1 <<< start) - 1) % U32 = 2 ^ start - 1 := by
    rw [hpow, Nat.mod_eq_of_lt (by rw [U32_eq]; omega)]
  have hdef : findLowestSetBitAfter mask start =
      (if mask &&& ((U32 - 1) ^^^ (2 ^ start - 1)) = 0 then NO_SPACE
       else tzcnt_nonzero (mask &&& ((U32 - 1) ^^^ (2 ^ start - 1)))) := by
    unfold findLowestSetBitAfter
    rw [hmb]
  rw [hdef] at h ⊢
  set bitsAfter := mask &&& ((U32 - 1) ^^^ (2 ^ start - 1)) with hba
  by_cases hz : bitsAfter = 0
  · rw [if_pos hz] at h; exact absurd rfl h
  · rw [if_neg hz] at h ⊢
    have hlt : bitsAfter ≤ mask := Nat.and_le_left
    have hlt32 : bitsAfter < 2 ^ 32 := by rw [U32_eq] at hm; omega
    obtain ⟨ht, _⟩ := tzcntFuel_spec (n := bitsAfter) (by omega) hlt32
    have hmask : ∀ j, Nat.testBit bitsAfter j = true →
        Nat.testBit mask j = true ∧ start ≤ j ∧ j < 32 := by
      intro j hj
      rw [hba, Nat.testBit_and, Nat.testBit_xor] at hj
      have hu32 : (U32 - 1) = 2 ^ 32 - 1 := by rw [U32_eq]
      rw [hu32, Nat.testBit_two_pow_sub_one, Nat.testBit_two_pow_sub_one] at hj
      rw [Bool.and_eq_true] at hj
      obtain ⟨hj1, hj2⟩ := hj
      refine ⟨hj1, ?_, ?_⟩
      · by_contra hc
        push_neg at hc
        simp [hc, Nat.lt_of_lt_of_le hc hs] at hj2
      · by_contra hc
        push_neg at hc
        simp [Nat.not_lt.mpr hc, Nat.not_lt.mpr (le_trans hs hc)] at hj2
    have := hmask _ ht
    exact ⟨this.1, this.2.1, this.2.2⟩

/-! ## Size-encoding characterizations -/

theorem hsb_ge_3 {S : Nat} (h8 : 8 ≤ S) (h32 : S < U32) : 3 ≤ hsb S := by
  by_contra hc
  push_neg at hc
  have h1 := hsb_lt_pow h32
  have h2 : 2 ^ (hsb S + 1) ≤ 2 ^ 3 := Nat.pow_le_pow_right (by norm_num) (by omega)
  norm_num at h2
  omega

theorem q_bounds {S : Nat} (h8 : 8 ≤ S) (h32 : S < U32) :
    8 ≤ S / 2 ^ (hsb S - 3) ∧ S / 2 ^ (hsb S - 3) < 16 := by
  have hh3 := hsb_ge_3 h8 h32
  have hle := hsb_pow_le (by omega : 1 ≤ S)
  have hlt := hsb_lt_pow h32
  have hsplit : hsb S = (hsb S - 3) + 3 := by omega
  constructor
  · rw [Nat.le_div_iff_mul_le (Nat.pos_pow_of_pos _ (by norm_num))]
    calc 8 * 2 ^ (hsb S - 3) = 2 ^ ((hsb S - 3) + 3) := by rw [pow_add]; ring
      _ = 2 ^ hsb S := by rw [← hsplit]
      _ ≤ S := hle
  · rw [Nat.div_lt_iff_lt_mul (Nat.pos_pow_of_pos _ (by norm_num))]
    calc S < 2 ^ (hsb S + 1) := hlt
      _ = 2 ^ ((hsb S - 3) + 3 + 1) := by rw [← hsplit]
      _ = 16 * 2 ^ (hsb S - 3) := by rw [pow_add, pow_add]; ring

theorem roundDown_eq {S : Nat} (h8 : 8 ≤ S) (h32 : S < U32) :
    uintToFloatRoundDown S = 8 * (hsb S - 2) + S / 2 ^ (hsb S - 3) % 8 := by
  have hh3 := hsb_ge_3 h8 h32
  have hh31 : hsb S ≤ 31 := hsb_le_31 (by omega) h32
  have hm8 : S / 2 ^ (hsb S - 3) % 8 < 8 := Nat.mod_lt _ (by norm_num)
  unfold uintToFloatRoundDown
  rw [if_neg (by unfold MANTISSA_VALUE; omega)]
  simp only [lzcnt_nonzero, MANTISSA_BITS, MANTISSA_MASK]
  rw [(by omega : 31 - (31 - hsb S) = hsb S)]
  rw [Nat.shiftRight_eq_div_pow, and_7_eq_mod]
  rw [shiftLeft_or_eq hm8]
  omega

theorem roundUp_eq {S : Nat} (h8 : 8 ≤ S) (h32 : S < U32) :
    uintToFloatRoundUp S = 8 * (hsb S - 2) + S / 2 ^ (hsb S - 3) % 8 +
      (if S % 2 ^ (hsb S - 3) = 0 then 0 else 1) := by
  have hh3 := hsb_ge_3 h8 h32
  have hh31 : hsb S ≤ 31 := hsb_le_31 (by omega) h32
  unfold uintToFloatRoundUp
  rw [if_neg (by unfold MANTISSA_VALUE; omega)]
  simp only [lzcnt_nonzero, MANTISSA_BITS, MANTISSA_MASK]
  rw [(by omega : 31 - (31 - hsb S) = hsb S)]
  have hmask : (1 <<< (hsb S - 3)) - 1 = 2 ^ (hsb S - 3) - 1 := by
    rw [Nat.shiftLeft_eq, one_mul]
  rw [hmask, Nat.and_pow_two_sub_one_eq_mod]
  rw [Nat.shiftRight_eq_div_pow, and_7_eq_mod, Nat.shiftLeft_eq]
  by_cases hL : S % 2 ^ (hsb S - 3) = 0
  · rw [if_neg (by simpa using hL), if_pos hL]
    ring_nf
    omega
  · rw [if_pos (by simpa using hL), if_neg hL]
    ring_nf
    omega

theorem floatToUint_small {v : Nat} (hv : v < 8) : floatToUint v = v := by
  unfold floatToUint
  simp only [MANTISSA_BITS, MANTISSA_MASK]
  rw [if_pos]
  · rw [and_7_eq_mod]; omega
  · rw [Nat.shiftRight_eq_div_pow]
    simp only [show (2 : Nat) ^ 3 = 8 by norm_num]
    omega

theorem floatToUint_eq {v : Nat} (h8 : 8 ≤ v) (hv : v ≤ 239) :
    floatToUint v = (v % 8 + 8) * 2 ^ (v / 8 - 1) := by
  unfold floatToUint
  simp only [MANTISSA_BITS, MANTISSA_MASK, MANTISSA_VALUE,
    Nat.shiftRight_eq_div_pow, and_7_eq_mod]
  rw [if_neg (by simp only [show (2 : Nat) ^ 3 = 8 by norm_num]; omega)]
  have hor : v % 8 ||| 8 = v % 8 + 8 := by
    have h1 : v % 8 < 2 ^ 3 := by simp only [show (2 : Nat) ^ 3 = 8 by norm_num]; omega
    have := Nat.mul_add_lt_is_or (i := 3) h1 1
    calc v % 8 ||| 8 = 8 ||| v % 8 := Nat.lor_comm _ _
      _ = 2 ^ 3 * 1 ||| v % 8 := by norm_num
      _ = 2 ^ 3 * 1 + v % 8 := (this).symm
      _ = v % 8 + 8 := by ring_nf
  rw [hor, Nat.shiftLeft_eq]
  rw [Nat.mod_eq_of_lt]
  have hq : v / 8 ≤ 29 := by omega
  have hr : v % 8 ≤ 7 := by omega
  calc (v % 8 + 8) * 2 ^ (v / 8 - 1) ≤ 15 * 2 ^ 28 := by
        apply Nat.mul_le_mul (by omega)
        exact Nat.pow_le_pow_right (by norm_num) (by omega)
    _ < U32 := by rw [U32_eq]; norm_num

theorem floatToUint_le_max {v : Nat} (hv : v ≤ 239) : floatToUint v ≤ 15 * 2 ^ 28 := by
  by_cases h8 : v < 8
  · rw [floatToUint_small h8]; omega
  · rw [floatToUint_eq (by omega) hv]
    apply Nat.mul_le_mul (by omega)
    exact Nat.pow_le_pow_right (by norm_num) (by omega)

theorem floatToUint_roundDown_le {S : Nat} (h32 : S < U32) :
    floatToUint (uintToFloatRoundDown S) ≤ S := by
  by_cases h8 : S < 8
  · have : uintToFloatRoundDown S = S := by
      unfold uintToFloatRoundDown
      rw [if_pos (by unfold MANTISSA_VALUE; omega)]
      simp [Nat.zero_shiftLeft]
    rw [this, floatToUint_small h8]
  · push_neg at h8
    have hh3 := hsb_ge_3 h8 h32
    have hh31 : hsb S ≤ 31 := hsb_le_31 (by omega) h32
    obtain ⟨hq1, hq2⟩ := q_bounds h8 h32
    set m := hsb S - 3 with hm
    set q := S / 2 ^ m with hq
    rw [roundDown_eq h8 h32]
    have hV8 : 8 ≤ 8 * (hsb S - 2) + q % 8 := by omega
    have hV239 : 8 * (hsb S - 2) + q % 8 ≤ 239 := by
      have : q % 8 < 8 := Nat.mod_lt _ (by norm_num)
      omega
    rw [floatToUint_eq hV8 hV239]
    have hmod : (8 * (hsb S - 2) + q % 8) % 8 = q % 8 := by omega
    have hdiv : (8 * (hsb S - 2) + q % 8) / 8 = hsb S - 2 := by omega
    rw [hmod, hdiv]
    have hq8 : q % 8 + 8 = q := by omega
    rw [hq8, (by omega : hsb S - 2 - 1 = m)]
    calc q * 2 ^ m = S / 2 ^ m * 2 ^ m := by rw [hq]
      _ ≤ S := Nat.div_mul_le_self _ _

theorem roundUp_cases {S : Nat} (h32 : S < U32) :
    uintToFloatRoundUp S = 240 ∨ S ≤ floatToUint (uintToFloatRoundUp S) := by
  by_cases h8 : S < 8
  · right
    have : uintToFloatRoundUp S = S := by
      unfold uintToFloatRoundUp
      rw [if_pos (by unfold MANTISSA_VALUE; omega)]
      simp [Nat.zero_shiftLeft]
    rw [this, floatToUint_small h8]
  · push_neg at h8
    have hh3 := hsb_ge_3 h8 h32
    have hh31 : hsb S ≤ 31 := hsb_le_31 (by omega) h32
    obtain ⟨hq1, hq2⟩ := q_bounds h8 h32
    set m := hsb S - 3 with hm
    set q := S / 2 ^ m with hq
    have hSsplit : 2 ^ m * q + S % 2 ^ m = S := Nat.div_add_mod _ _
    have hLlt : S % 2 ^ m < 2 ^ m := Nat.mod_lt _ (Nat.pos_pow_of_pos _ (by norm_num))
    rw [roundUp_eq h8 h32]
    by_cases hL : S % 2 ^ m = 0
    · right
      rw [if_pos hL]
      have hV8 : 8 ≤ 8 * (hsb S - 2) + q % 8 + 0 := by omega
      have hV239 : 8 * (hsb S - 2) + q % 8 + 0 ≤ 239 := by
        have : q % 8 < 8 := Nat.mod_lt _ (by norm_num)
        omega
      rw [floatToUint_eq hV8 hV239]
      have : q % 8 < 8 := Nat.mod_lt _ (by norm_num)
      rw [(by omega : (8 * (hsb S - 2) + q % 8 + 0) % 8 = q % 8),
          (by omega : (8 * (hsb S - 2) + q % 8 + 0) / 8 = hsb S - 2),
          (by omega : q % 8 + 8 = q), (by omega : hsb S - 2 - 1 = m)]
      calc S = 2 ^ m * q + S % 2 ^ m := hSsplit.symm
        _ = q * 2 ^ m := by rw [hL]; ring
        _ ≤ q * 2 ^ m := le_refl _
    · rw [if_neg hL]
      by_cases hr : q % 8 = 7
      · by_cases hh : hsb S = 31
        · left
          rw [hr, hh]
        · right
          have hV : 8 * (hsb S - 2) + q % 8 + 1 = 8 * (hsb S - 1) := by omega
          rw [hV]
          have hV8 : 8 ≤ 8 * (hsb S - 1) := by omega
          have hV239 : 8 * (hsb S - 1) ≤ 239 := by omega
          rw [floatToUint_eq hV8 hV239]
          rw [(by omega : 8 * (hsb S - 1) % 8 = 0),
              (by omega : 8 * (hsb S - 1) / 8 = hsb S - 1)]
          have : (0 + 8) * 2 ^ (hsb S - 1 - 1) = 2 ^ (hsb S + 1) := by
            rw [(by norm_num : (0 + 8 : Nat) = 2 ^ 3), ← pow_add]
            congr 1
            omega
          rw [this]
          exact le_of_lt (hsb_lt_pow h32)
      · right
        have hrlt : q % 8 < 8 := Nat.mod_lt _ (by norm_num)
        have hV8 : 8 ≤ 8 * (hsb S - 2) + q % 8 + 1 := by omega
        have hV239 : 8 * (hsb S - 2) + q % 8 + 1 ≤ 239 := by omega
        rw [floatToUint_eq hV8 hV239]
        rw [(by omega : (8 * (hsb S - 2) + q % 8 + 1) % 8 = q % 8 + 1),
            (by omega : (8 * (hsb S - 2) + q % 8 + 1) / 8 = hsb S - 2),
            (by omega : q % 8 + 1 + 8 = q + 1), (by omega : hsb S - 2 - 1 = m)]
        calc S = 2 ^ m * q + S % 2 ^ m := hSsplit.symm
          _ ≤ 2 ^ m * q + 2 ^ m := by omega
          _ = (q + 1) * 2 ^ m := by ring

theorem roundUp_240_gt {S : Nat} (h32 : S < U32)
    (h : uintToFloatRoundUp S = 240) : 15 * 2 ^ 28 < S := by
  by_cases h8 : S < 8
  · exfalso
    have : uintToFloatRoundUp S = S := by
      unfold uintToFloatRoundUp
      rw [if_pos (by unfold MANTISSA_VALUE; omega)]
      simp [Nat.zero_shiftLeft]
    omega
  · push_neg at h8
    have hh3 := hsb_ge_3 h8 h32
    have hh31 : hsb S ≤ 31 := hsb_le_31 (by omega) h32
    obtain ⟨hq1, hq2⟩ := q_bounds h8 h32
    rw [roundUp_eq h8 h32] at h
    set m := hsb S - 3 with hm
    set q := S / 2 ^ m with hq
    have hrlt : q % 8 < 8 := Nat.mod_lt _ (by norm_num)
    by_cases hL : S % 2 ^ m = 0
    · rw [if_pos hL] at h; omega
    · rw [if_neg hL] at h
      have hh : hsb S = 31 ∧ q % 8 = 7 := by omega
      have hq15 : q = 15 := by omega
      have hm28 : m = 28 := by omega
      have hSsplit : 2 ^ m * q + S % 2 ^ m = S := Nat.div_add_mod _ _
      rw [hm28, hq15] at hSsplit
      have : 1 ≤ S % 2 ^ m := by omega
      rw [hm28] at this
      norm_num at hSsplit
      omega

theorem roundDown_le_239 {S : Nat} (h32 : S < U32) :
    uintToFloatRoundDown S ≤ 239 := by
  by_cases h8 : S < 8
  · have : uintToFloatRoundDown S = S := by
      unfold uintToFloatRoundDown
      rw [if_pos (by unfold MANTISSA_VALUE; omega)]
      simp [Nat.zero_shiftLeft]
    omega
  · push_neg at h8
    have hh31 : hsb S ≤ 31 := hsb_le_31 (by omega) h32
    have : S / 2 ^ (hsb S - 3) % 8 < 8 := Nat.mod_lt _ (by norm_num)
    rw [roundDown_eq h8 h32]
    omega

theorem roundUp_le_240 {S : Nat} (h32 : S < U32) :
    uintToFloatRoundUp S ≤ 240 := by
  by_cases h8 : S < 8
  · have : uintToFloatRoundUp S = S := by
      unfold uintToFloatRoundUp
      rw [if_pos (by unfold MANTISSA_VALUE; omega)]
      simp [Nat.zero_shiftLeft]
    omega
  · push_neg at h8
    have hh31 : hsb S ≤ 31 := hsb_le_31 (by omega) h32
    have : S / 2 ^ (hsb S - 3) % 8 < 8 := Nat.mod_lt _ (by norm_num)
    rw [roundUp_eq h8 h32]
    by_cases hL : S % 2 ^ (hsb S - 3) = 0
    · rw [if_pos hL]; omega
    · rw [if_neg hL]; omega

theorem floatToUint_mono {u v : Nat} (huv : u ≤ v) (hv : v ≤ 239) :
    floatToUint u ≤ floatToUint v := by
  by_cases hu8 : u < 8
  · rw [floatToUint_small hu8]
    by_cases hv8 : v < 8
    · rw [floatToUint_small hv8]; omega
    · rw [floatToUint_eq (by omega) hv]
      have : 1 ≤ 2 ^ (v / 8 - 1) := Nat.one_le_two_pow
      have : 8 * 1 ≤ (v % 8 + 8) * 2 ^ (v / 8 - 1) :=
        Nat.mul_le_mul (by omega) (by omega)
      omega
  · push_neg at hu8
    rw [floatToUint_eq hu8 (by omega), floatToUint_eq (by omega) hv]
    by_cases hab : u / 8 = v / 8
    · have hur : u % 8 ≤ v % 8 := by omega
      rw [hab]
      exact Nat.mul_le_mul (by omega) (le_refl _)
    · have hablt : u / 8 < v / 8 := by
        rcases Nat.lt_or_ge (u / 8) (v / 8) with h | h
        · exact h
        · exfalso; exact hab (le_antisymm (Nat.div_le_div_right huv) h)
      have h1 : (u % 8 + 8) * 2 ^ (u / 8 - 1) ≤ 16 * 2 ^ (u / 8 - 1) :=
        Nat.mul_le_mul (by omega) (le_refl _)
      have h2 : (16 : Nat) * 2 ^ (u / 8 - 1) = 2 ^ (u / 8 + 3) := by
        rw [(by norm_num : (16 : Nat) = 2 ^ 4), ← pow_add]
        congr 1
        omega
      have h3 : (2 : Nat) ^ (u / 8 + 3) ≤ 2 ^ (v / 8 + 2) :=
        Nat.pow_le_pow_right (by norm_num) (by omega)
      have h4 : (2 : Nat) ^ (v / 8 + 2) = 8 * 2 ^ (v / 8 - 1) := by
        rw [(by norm_num : (8 : Nat) = 2 ^ 3), ← pow_add]
        congr 1
        omega
      have h5 : 8 * 2 ^ (v / 8 - 1) ≤ (v % 8 + 8) * 2 ^ (v / 8 - 1) :=
        Nat.mul_le_mul (by omega) (le_refl _)
      omega

/-! ## Function-array update lemmas -/

theorem fupd_same {α : Type} (f : Nat → α) (i : Nat) (v : α) : fupd f i v i = v := by
  simp [fupd]

theorem fupd_other {α : Type} (f : Nat → α) (i : Nat) (v : α) {j : Nat} (h : j ≠ i) :
    fupd f i v j = f j := by
  simp [fupd, h]

theorem fupd_apply {α : Type} (f : Nat → α) (i : Nat) (v : α) (j : Nat) :
    fupd f i v j = if j = i then v else f j := rfl

/-! ## Structure of `allocate` -/

theorem allocateFromBin_metadata (s : Allocator) (q t l : Nat) :
    ((allocateFromBin s q t l).1).metadata =
      s.m_binIndices ((t <<< TOP_BINS_INDEX_SHIFT) ||| l) := rfl

theorem roundUp_shift_le_30 {size : Nat} (hsize : size < U32) :
    uintToFloatRoundUp size >>> TOP_BINS_INDEX_SHIFT ≤ 30 := by
  have := roundUp_le_240 hsize
  rw [Nat.shiftRight_eq_div_pow]
  simp only [TOP_BINS_INDEX_SHIFT, show (2 : Nat) ^ 3 = 8 by norm_num]
  omega

/-- Either `allocate` fails without touching the state, or it runs the
shared pop-and-split tail `allocateFromBin` on a bin `(t, l)` whose bitmap
bit is set and whose index is at least `round_up(size)`. -/
theorem allocate_scan (s : Allocator) (size : Nat) (hsize : size < U32)
    (htopw : s.m_usedBinsTop < U32)
    (hbinsw : ∀ t, t < 32 → s.m_usedBins t < 256)
    (htopc : ∀ t, t < 32 → Nat.testBit s.m_usedBinsTop t = true → s.m_usedBins t ≠ 0) :
    allocate s size = (EmptyAllocation, s) ∨
    (s.m_freeOffset ≠ 0 ∧ ∃ t l, t < 32 ∧ l < 8 ∧
      Nat.testBit (s.m_usedBins t) l = true ∧
      uintToFloatRoundUp size ≤ 8 * t + l ∧
      allocate s size = allocateFromBin s size t l) := by
  by_cases h0 : s.m_freeOffset = 0
  · left
    unfold allocate
    rw [if_pos h0]
  · have hU240 := roundUp_le_240 hsize
    set mB := uintToFloatRoundUp size with hmB
    set mT := mB >>> TOP_BINS_INDEX_SHIFT with hmT
    set mL := mB &&& LEAF_BINS_INDEX_MASK with hmL
    have hmT30 : mT ≤ 30 := roundUp_shift_le_30 hsize
    have hmL8 : mL < 8 := by
      rw [hmL]
      simp only [LEAF_BINS_INDEX_MASK, and_7_eq_mod]
      omega
    have hmB_eq : 8 * mT + mL = mB := by
      rw [hmT, hmL, Nat.shiftRight_eq_div_pow]
      simp only [TOP_BINS_INDEX_SHIFT, LEAF_BINS_INDEX_MASK, and_7_eq_mod,
        show (2 : Nat) ^ 3 = 8 by norm_num]
      omega
    set lb := (if s.m_usedBinsTop &&& (1 <<< mT) ≠ 0
        then findLowestSetBitAfter (s.m_usedBins mT) mL
        else NO_SPACE) with hlb_def
    have hA : allocate s size =
        (if lb = NO_SPACE then
          (if findLowestSetBitAfter s.m_usedBinsTop (mT + 1) = NO_SPACE
           then (EmptyAllocation, s)
           else allocateFromBin s size
             (findLowestSetBitAfter s.m_usedBinsTop (mT + 1))
             (tzcnt_nonzero
               (s.m_usedBins (findLowestSetBitAfter s.m_usedBinsTop (mT + 1)))))
         else allocateFromBin s size mT lb) := by
      unfold allocate
      rw [if_neg h0]
    by_cases hlb : lb = NO_SPACE
    · rw [if_pos hlb] at hA
      by_cases hc3 : findLowestSetBitAfter s.m_usedBinsTop (mT + 1) = NO_SPACE
      · left
        rw [if_pos hc3] at hA
        exact hA
      · right
        refine ⟨h0, ?_⟩
        rw [if_neg hc3] at hA
        obtain ⟨ht1, ht2, ht3⟩ := findLowestSetBitAfter_spec htopw (by omega) hc3
        set t := findLowestSetBitAfter s.m_usedBinsTop (mT + 1) with hts
        have hnz : s.m_usedBins t ≠ 0 := htopc t ht3 ht1
        have hlt : s.m_usedBins t < 256 := hbinsw t ht3
        have hlt32 : s.m_usedBins t < 2 ^ 32 := by norm_num; omega
        have hlt8 : s.m_usedBins t < 2 ^ 8 := by norm_num; omega
        obtain ⟨hl1, _⟩ := tzcntFuel_spec (f := 32) (n := s.m_usedBins t)
          (by omega) hlt32
        have hl8 : tzcntFuel 32 (s.m_usedBins t) < 8 :=
          testBit_lt_pow hl1 hlt8
        refine ⟨t, tzcnt_nonzero (s.m_usedBins t), ht3, hl8, hl1, ?_, hA⟩
        have : mT + 1 ≤ t := ht2
        omega
    · rw [if_neg hlb] at hA
      right
      refine ⟨h0, ?_⟩
      have hc1 : s.m_usedBinsTop &&& (1 <<< mT) ≠ 0 := by
        by_contra hc
        rw [hlb_def, if_neg (show ¬(s.m_usedBinsTop &&& 1 <<< mT ≠ 0) from
          fun hx => hx hc)] at hlb
        exact hlb rfl
      have hlb_eq : lb = findLowestSetBitAfter (s.m_usedBins mT) mL := by
        rw [hlb_def, if_pos hc1]
      rw [hlb_eq] at hlb hA
      have hmw : s.m_usedBins mT < U32 := by
        have := hbinsw mT (by omega)
        rw [U32_eq]
        omega
      obtain ⟨hl1, hl2, _⟩ := findLowestSetBitAfter_spec hmw (by omega) hlb
      have hlt8 : s.m_usedBins mT < 2 ^ 8 := by
        have := hbinsw mT (by omega)
        norm_num
        omega
      have hl8 : findLowestSetBitAfter (s.m_usedBins mT) mL < 8 :=
        testBit_lt_pow hl1 hlt8
      refine ⟨mT, _, by omega, hl8, hl1, by omega, hA⟩

/-! ## Claim theorems (first batch) -/

set_option maxRecDepth 100000 in
/-- C4: for every 8-bit value `v` with `v < 240`,
`round_up(decode(v)) = v` and `round_down(decode(v)) = v`, where
`round_up = uintToFloatRoundUp`, `round_down = uintToFloatRoundDown` and
`decode = floatToUint`. -/
theorem claim_C4 (v : Nat) (hv : v < 240) :
    uintToFloatRoundUp (floatToUint v) = v ∧
    uintToFloatRoundDown (floatToUint v) = v := by
  revert hv
  revert v
  decide

theorem claim_C4_witness :
    137 < 240 ∧
    (uintToFloatRoundUp (floatToUint 137) = 137 ∧
     uintToFloatRoundDown (floatToUint 137) = 137) :=
  ⟨by decide, claim_C4 137 (by decide)⟩

/-- C5 (counterexample): at `S = 0xF0000001` the 32-bit decode of the
round-up bin wraps to `0`, so `decode(round_up(S)) >= S` fails even though
`S` is a valid 32-bit size. -/
theorem claim_C5_counterexample :
    4026531841 < U32 ∧
    floatToUint (uintToFloatRoundUp 4026531841) = 0 ∧
    ¬ (4026531841 ≤ floatToUint (uintToFloatRoundUp 4026531841)) := by
  refine ⟨by decide, ?_, ?_⟩ <;> decide

/-- C5 (amended): for every 32-bit size `S`,
`decode(round_down(S)) ≤ S`; and `decode(round_up(S)) ≥ S` holds for all
`S ≤ 15·2^28 = 0xF0000000` — for larger `S` the round-up encoding reaches
bin 240 and its 32-bit decode wraps past `2^32` to `0`. -/
theorem claim_C5 (S : Nat) (h32 : S < U32) :
    floatToUint (uintToFloatRoundDown S) ≤ S ∧
    (S ≤ 15 * 2 ^ 28 → S ≤ floatToUint (uintToFloatRoundUp S)) := by
  refine ⟨floatToUint_roundDown_le h32, fun hle => ?_⟩
  rcases roundUp_cases h32 with h | h
  · exfalso
    have := roundUp_240_gt h32 h
    omega
  · exact h

theorem claim_C5_witness :
    529445 < U32 ∧
    (floatToUint (uintToFloatRoundDown 529445) ≤ 529445 ∧
     (529445 ≤ 15 * 2 ^ 28 → 529445 ≤ floatToUint (uintToFloatRoundUp 529445))) :=
  ⟨by decide, claim_C5 529445 (by decide)⟩

/-- C1 (bug evidence): on a fresh 2-slot allocator over 16 bytes exactly
one node slot remains free (`m_freeOffset = 0`, slot 1 on the stack) and
bin 16 — which is `≥ round_up(8) = 8` — is non-empty, so by the claim
`allocate(8)` must succeed; the code's `m_freeOffset == 0` exhaustion
check (which fires one slot early) makes it return `NO_SPACE` instead. -/
theorem claim_C1_bug :
    tinyAlloc.m_freeOffset = 0 ∧
    tinyAlloc.m_freeNodes 0 = 1 ∧
    uintToFloatRoundUp 8 = 8 ∧
    tinyAlloc.m_binIndices 16 ≠ NODE_UNUSED ∧
    (allocate tinyAlloc 8).1 = EmptyAllocation := by
  refine ⟨?_, ?_, ?_, ?_, ?_⟩ <;> decide

/-- C2 (counterexample): on a fresh 2-slot allocator (`m_freeOffset = 0`),
`storageReport` returns `{0, 0}` although `m_freeStorage = 16`,
`used_bins_top ≠ 0`, and the claim's `decode((t<<3)|l)` formula gives 16 —
so neither field matches the claim when no spare node-pool slot remains. -/
theorem claim_C2_counterexample :
    (storageReport tinyAlloc).totalFreeSpace ≠ tinyAlloc.m_freeStorage ∧
    tinyAlloc.m_freeStorage = 16 ∧
    tinyAlloc.m_usedBinsTop ≠ 0 ∧
    (storageReport tinyAlloc).largestFreeRegion = 0 ∧
    floatToUint ((hsb tinyAlloc.m_usedBinsTop <<< TOP_BINS_INDEX_SHIFT) |||
      hsb (tinyAlloc.m_usedBins (hsb tinyAlloc.m_usedBinsTop))) = 16 := by
  refine ⟨?_, ?_, ?_, ?_, ?_⟩ <;> decide

/-- C2 (amended): whenever at least one node-pool slot remains free
(`m_freeOffset > 0`), `storage_report` returns exactly the spec's values:
`total_free_space = free_storage` and `largest_free_region` given by the
highest-set-bit formula; when `m_freeOffset = 0` the code instead reports
`{0, 0}`. -/
theorem claim_C2 (s : Allocator) (h0 : s.m_freeOffset ≠ 0)
    (htop : s.m_usedBinsTop < U32)
    (hbins : s.m_usedBinsTop ≠ 0 →
      s.m_usedBins (hsb s.m_usedBinsTop) < 256 ∧
      s.m_usedBins (hsb s.m_usedBinsTop) ≠ 0) :
    storageReport s = storageReportSpec s := by
  unfold storageReport storageReportSpec
  rw [if_pos (Nat.pos_of_ne_zero h0)]
  by_cases ht : s.m_usedBinsTop = 0
  · rw [if_neg (by simpa using ht), if_pos ht]
  · rw [if_pos ht, if_neg ht]
    obtain ⟨hlt, hnz⟩ := hbins ht
    have h1 : 31 - lzcnt_nonzero s.m_usedBinsTop = hsb s.m_usedBinsTop := by
      unfold lzcnt_nonzero
      have := hsb_le_31 (Nat.one_le_iff_ne_zero.mpr ht) htop
      omega
    have h2 : 31 - lzcnt_nonzero (s.m_usedBins (hsb s.m_usedBinsTop)) =
        hsb (s.m_usedBins (hsb s.m_usedBinsTop)) := by
      unfold lzcnt_nonzero
      have := hsb_le_31 (Nat.one_le_iff_ne_zero.mpr hnz)
        (by rw [U32_eq]; omega)
      omega
    simp only [h1, h2]

theorem claim_C2_witness :
    ((initAllocator 1024 4).m_freeOffset ≠ 0 ∧
     (initAllocator 1024 4).m_usedBinsTop < U32 ∧
     ((initAllocator 1024 4).m_usedBinsTop ≠ 0 →
       (initAllocator 1024 4).m_usedBins (hsb (initAllocator 1024 4).m_usedBinsTop) < 256 ∧
       (initAllocator 1024 4).m_usedBins (hsb (initAllocator 1024 4).m_usedBinsTop) ≠ 0)) ∧
    storageReport (initAllocator 1024 4) = storageReportSpec (initAllocator 1024 4) :=
  ⟨⟨by decide, by decide, by decide⟩,
   claim_C2 (initAllocator 1024 4) (by decide) (by decide) (by decide)⟩

/-- C9: on a fresh allocator with `size = 256 MiB` and
`max_allocs = 131072`, the sequence `a=alloc(1024); b=alloc(3456);
free(a); c=alloc(2345); d=alloc(456); e=alloc(512)` yields
`c.offset = 4480`, `d.offset = 0` and `e.offset = 456`. -/
theorem claim_C9 : traceC9 = (4480, 0, 456) := by decide

end OffsetAlloc
